import Mathlib

/-!
# Verification of the syncbox packet-framing and message-envelope layer

Shallow embedding of the protocol core of `logger.go` (package `syncbox`):
the fixed-size `Packet` record, the `Serialize`/`Deserialize` chunking
algorithm, and the `Request`/`Response` envelopes with their JSON
encode/decode contracts.

Go byte slices are modelled as `List Nat` (each entry one byte); Go's
built-in `copy` is modelled by `goCopy`; Go's `int` is modelled as `Int`
and the `uint32(·)` conversion as reduction modulo `2^32` (which is what
Go's integer conversion computes, for negative values as well).
-/

set_option maxRecDepth 8192

namespace Syncbox

/-! ## Protocol constants (logger.go lines 128-151) -/

def RequestPrefix : Char := 'q'

def ResponsePrefix : Char := 's'

def PacketDataSize : Nat := 1024

def PacketAddrSize : Nat := 4

def PacketTotalSize : Nat := 1032

def ByteDelim : Nat := 4

def StringDelim : String := String.mk [Char.ofNat ByteDelim]

def TypeIdentity : String := "IDENTITY"

def TypeDigest : String := "DIGEST"

def TypeSyncRequest : String := "SYNC-REQUEST"

def TypeFile : String := "FILE"

def StatusOK : Int := 200

def StatusBad : Int := 400

def MessageAccept : String := "ACCEPT"

def MessageDeny : String := "DENY"

def SyncboxServerUsernam : String := "SYNCBOX-SERVER"

/-! ## Byte-slice primitives -/

/-- Go's built-in `copy dst src` on byte slices: copies
`min dst.length src.length` bytes from `src` over the front of `dst`,
leaving the rest of `dst` unchanged, and (as a value) returns the
updated `dst`. -/
def goCopy (dst src : List Nat) : List Nat :=
  src.take (min dst.length src.length) ++ dst.drop (min dst.length src.length)

/-- Go's `uint32(n)` conversion from `int`: the value modulo `2^32 =
4294967296` (two's-complement wrap for negative `n`). -/
def toUInt32 (n : Int) : Nat := (n % 4294967296).toNat

/-- Embeds `intToBinary` (logger.go 174-181): `binary.Write` of a `uint32` in
little-endian order into a fresh buffer.  Writing to a `bytes.Buffer`
cannot fail, so the Go error result is always `nil`; the function always
produces exactly 4 bytes. -/
def intToBinary (num : Nat) : List Nat :=
  [num % 256, num / 256 % 256, num / 65536 % 256, num / 16777216 % 256]

/-- Embeds `binaryToInt` (logger.go 183-191): `binary.Read` of a little-endian
`uint32` from the given bytes; fails (returns `none`) exactly when fewer
than 4 bytes are available. -/
def binaryToInt (bin : List Nat) : Option Nat :=
  match bin with
  | b0 :: b1 :: b2 :: b3 :: _ => some (b0 + 256 * b1 + 65536 * b2 + 16777216 * b3)
  | _ => none

/-! ## Packet (logger.go 153-254) -/

/-- Errors surfaced by the packet layer.  `ErrorExceedsAddrLength` is the
address-overflow error (defined elsewhere in the package); the decode
error stands for a failed `binary.Read`. -/
inductive PacketError where
  | ErrorExceedsAddrLength : PacketError
  | DecodeFailure : PacketError
deriving DecidableEq, Repr

/-- Embeds the `Packet` struct (logger.go 153-158).  In Go the three fields are fixed-size
byte arrays `[4]byte`, `[4]byte`, `[1024]byte`; here they are byte lists
with the well-formedness predicate `Packet.WF` recording those lengths. -/
structure Packet where
  size : List Nat
  sequence : List Nat
  data : List Nat
deriving DecidableEq, Repr

/-- The field lengths that Go's array types impose on every `Packet`. -/
def Packet.WF (packet : Packet) : Prop :=
  packet.size.length = PacketAddrSize ∧
  packet.sequence.length = PacketAddrSize ∧
  packet.data.length = PacketDataSize

instance (packet : Packet) : Decidable packet.WF := by
  unfold Packet.WF; infer_instance

/-- Embeds `Packet.SetSize` (logger.go 195-205).  Encodes `uint32(size)` and
copies it into the `Size` field; the `len(bytes) > PacketAddrSize` guard
is kept exactly as in the source. -/
def Packet.SetSize (packet : Packet) (size : Int) : Except PacketError Packet :=
  let bs := intToBinary (toUInt32 size)
  if bs.length > PacketAddrSize then
    Except.error PacketError.ErrorExceedsAddrLength
  else
    Except.ok { packet with size := goCopy packet.size bs }

/-- Embeds `Packet.GetSize` (logger.go 208-214). -/
def Packet.GetSize (packet : Packet) : Except PacketError Nat :=
  match binaryToInt packet.size with
  | some num => Except.ok num
  | none => Except.error PacketError.DecodeFailure

/-- Embeds `Packet.SetSequence` (logger.go 217-227). -/
def Packet.SetSequence (packet : Packet) (sequence : Int) : Except PacketError Packet :=
  let bs := intToBinary (toUInt32 sequence)
  if bs.length > PacketAddrSize then
    Except.error PacketError.ErrorExceedsAddrLength
  else
    Except.ok { packet with sequence := goCopy packet.sequence bs }

/-- Embeds `Packet.GetSequence` (logger.go 230-236). -/
def Packet.GetSequence (packet : Packet) : Except PacketError Nat :=
  match binaryToInt packet.sequence with
  | some num => Except.ok num
  | none => Except.error PacketError.DecodeFailure

/-- Embeds `NewPacket` (logger.go 161-172): a zero packet holding `data`, then
`SetSize` and `SetSequence`, each error propagated. -/
def NewPacket (size sequence : Int) (data : List Nat) : Except PacketError Packet := do
  let packet : Packet :=
    { size := List.replicate PacketAddrSize 0
      sequence := List.replicate PacketAddrSize 0
      data := data }
  let packet ← packet.SetSize size
  let packet ← packet.SetSequence sequence
  Except.ok packet

/-- Embeds `Packet.ToBytes` (logger.go 239-245): a zeroed 1032-byte buffer with
the three fields copied to offsets 0, 4 and 8. -/
def Packet.ToBytes (packet : Packet) : List Nat :=
  goCopy (List.replicate PacketAddrSize 0) packet.size ++
  goCopy (List.replicate PacketAddrSize 0) packet.sequence ++
  goCopy (List.replicate (PacketTotalSize - 2 * PacketAddrSize) 0) packet.data

/-- Embeds `RebornPacket` (logger.go 248-254): a zero packet with the slices
`data[0:4]`, `data[4:8]`, `data[8:1032]` copied into its fields. -/
def RebornPacket (data : List Nat) : Packet :=
  { size := goCopy (List.replicate PacketAddrSize 0) (data.take PacketAddrSize)
    sequence := goCopy (List.replicate PacketAddrSize 0)
      ((data.drop PacketAddrSize).take PacketAddrSize)
    data := goCopy (List.replicate (PacketDataSize) 0)
      ((data.drop (2 * PacketAddrSize)).take PacketDataSize) }

/-! ## Basic lemmas about the primitives -/

theorem goCopy_length (dst src : List Nat) : (goCopy dst src).length = dst.length := by
  simp [goCopy]

theorem goCopy_eq_self (dst src : List Nat) (h : src.length = dst.length) :
    goCopy dst src = src := by
  simp [goCopy, h, List.take_of_length_le, List.drop_eq_nil_of_le, Nat.le_refl]

theorem goCopy_replicate (n : Nat) (src : List Nat) (h : src.length ≤ n) :
    goCopy (List.replicate n 0) src = src ++ List.replicate (n - src.length) 0 := by
  simp [goCopy, Nat.min_eq_right h, List.take_of_length_le, List.drop_replicate]

theorem binaryToInt_intToBinary (m : Nat) (h : m < 2 ^ 32) :
    binaryToInt (intToBinary m) = some m := by
  simp [binaryToInt, intToBinary]
  omega

theorem intToBinary_length (m : Nat) : (intToBinary m).length = 4 := rfl

theorem toUInt32_lt (n : Int) : toUInt32 n < 2 ^ 32 := by
  unfold toUInt32
  norm_num
  omega

theorem toUInt32_ofNat (m : Nat) : toUInt32 (Int.ofNat m) = m % 2 ^ 32 := by
  unfold toUInt32
  norm_num
  omega

/-! ## Stream serializer (logger.go 257-287) -/

/-- The chunk built by one iteration of the loop in `Serialize`
(logger.go 260-266): a zeroed 1024-byte buffer receiving
`data[sequence*1024 : len(data)]` on the last iteration and
`data[sequence*1024 : (sequence+1)*1024]` otherwise. -/
def serializeChunk (data : List Nat) (size sequence : Nat) : List Nat :=
  if sequence == size - 1 then
    goCopy (List.replicate PacketDataSize 0) (data.drop (sequence * PacketDataSize))
  else
    goCopy (List.replicate PacketDataSize 0)
      ((data.drop (sequence * PacketDataSize)).take PacketDataSize)

/-- Embeds `Serialize` (logger.go 257-274).  The packet count is
`int(math.Ceil(float64(len(data)) / PacketDataSize))`, modelled as the
exact ceiling division `(len + 1023) / 1024` (the float computation is
exact for every length below `2^53`); the loop with early error return
is modelled by `mapM` over the sequence numbers. -/
def Serialize (data : List Nat) : Except PacketError (List Packet) :=
  let size := (data.length + (PacketDataSize - 1)) / PacketDataSize
  (List.range size).mapM fun sequence =>
    NewPacket (Int.ofNat size) (Int.ofNat sequence) (serializeChunk data size sequence)

/-- Embeds `Deserialize` (logger.go 277-287): a zeroed buffer of
`len(packets) * 1024` bytes, with each packet's `Data` copied to its
consecutive 1024-byte window; the windows concatenated in array order. -/
def Deserialize (packets : List Packet) : List Nat :=
  match packets with
  | [] => []
  | packet :: rest => goCopy (List.replicate PacketDataSize 0) packet.data ++ Deserialize rest

/-! ## Normal form of `Serialize`'s output -/

/-- The packet value that `NewPacket size sequence d` actually builds:
both address fields are stored as the little-endian bytes of the value
reduced modulo `2^32`. -/
def mkSerializedPacket (size sequence : Nat) (d : List Nat) : Packet :=
  { size := intToBinary (size % 2 ^ 32)
    sequence := intToBinary (sequence % 2 ^ 32)
    data := d }

/-- Closed form of the packet list produced by `Serialize`. -/
def serializePackets (data : List Nat) : List Packet :=
  let size := (data.length + (PacketDataSize - 1)) / PacketDataSize
  (List.range size).map fun sequence =>
    mkSerializedPacket size sequence (serializeChunk data size sequence)

theorem NewPacket_ofNat_ok (s q : Nat) (d : List Nat) :
    NewPacket (Int.ofNat s) (Int.ofNat q) d = Except.ok (mkSerializedPacket s q d) := by
  rw [show NewPacket (Int.ofNat s) (Int.ofNat q) d =
      Except.ok
        { size := intToBinary (toUInt32 (Int.ofNat s))
          sequence := intToBinary (toUInt32 (Int.ofNat q))
          data := d } from rfl,
    toUInt32_ofNat, toUInt32_ofNat]
  rfl

theorem mapM_ok {α β : Type} (f : α → Except PacketError β) (g : α → β) (l : List α)
    (h : ∀ x ∈ l, f x = Except.ok (g x)) : l.mapM f = Except.ok (l.map g) := by
  induction l with
  | nil => rfl
  | cons a t ih =>
    rw [List.mapM_cons, h a (by simp), ih (fun x hx => h x (by simp [hx]))]
    rfl

/-- Lemma: `Serialize` never fails and produces exactly `serializePackets`. -/
theorem Serialize_eq (data : List Nat) :
    Serialize data = Except.ok (serializePackets data) := by
  unfold Serialize serializePackets
  exact mapM_ok _ _ _ fun x _ => NewPacket_ofNat_ok _ _ _

/-! ## The chunk decomposition of a payload -/

/-- Zero-pad a byte list on the right to length `n`. -/
def padTo (n : Nat) (l : List Nat) : List Nat := l ++ List.replicate (n - l.length) 0

theorem serializeChunk_eq_padTo (data : List Nat) (s i : Nat) (hi : i < s)
    (hle : data.length ≤ s * 1024) (hgt : s * 1024 < data.length + 1024) :
    serializeChunk data s i = padTo 1024 ((data.drop (i * 1024)).take 1024) := by
  have hdlen : (data.drop (i * 1024)).length = data.length - i * 1024 := by simp
  unfold serializeChunk padTo
  simp only [PacketDataSize]
  by_cases hlast : i = s - 1
  · rw [if_pos (by simp [hlast])]
    have hshort : (data.drop (i * 1024)).length ≤ 1024 := by omega
    rw [goCopy_replicate _ _ hshort, List.take_of_length_le hshort]
  · rw [if_neg (by simp [hlast])]
    have hfull : ((data.drop (i * 1024)).take 1024).length = 1024 := by
      simp; omega
    rw [goCopy_replicate _ _ (le_of_eq hfull)]

/-- Concatenating the zero-padded 1024-byte chunks of `data` yields the
first `s * 1024` bytes of `data` followed by zero padding up to length
`s * 1024`. -/
theorem join_padTo_chunks (s : Nat) (data : List Nat) :
    ((List.range s).map fun i => padTo 1024 ((data.drop (i * 1024)).take 1024)).flatten
      = data.take (s * 1024) ++ List.replicate (s * 1024 - data.length) 0 := by
  induction s with
  | zero => simp
  | succ k ih =>
    rw [List.range_succ, List.map_append, List.flatten_append]
    simp only [List.map_cons, List.map_nil, List.flatten_cons, List.flatten_nil,
      List.append_nil]
    rw [ih]
    have hmul : (k + 1) * 1024 = k * 1024 + 1024 := by ring
    rw [hmul]
    rcases le_or_lt data.length (k * 1024) with hL | hL
    · have h1 : data.take (k * 1024) = data := List.take_of_length_le hL
      have h2 : data.drop (k * 1024) = [] := List.drop_eq_nil_of_le hL
      have h3 : data.take (k * 1024 + 1024) = data := List.take_of_length_le (by omega)
      rw [h1, h2, h3]
      unfold padTo
      simp only [List.take_nil, List.length_nil, List.nil_append, Nat.sub_zero,
        List.append_assoc]
      rw [← List.replicate_add]
      congr 2
      omega
    · have h0 : k * 1024 - data.length = 0 := by omega
      rw [h0]
      simp only [List.replicate_zero, List.append_nil]
      rw [List.take_add, List.append_assoc]
      congr 1
      unfold padTo
      congr 2
      simp only [List.length_take, List.length_drop]
      omega

theorem serializeChunk_length (data : List Nat) (s i : Nat) :
    (serializeChunk data s i).length = PacketDataSize := by
  unfold serializeChunk
  split <;> simp [goCopy_length]

theorem Deserialize_flatten (packets : List Packet) :
    Deserialize packets
      = (packets.map fun p => goCopy (List.replicate PacketDataSize 0) p.data).flatten := by
  induction packets with
  | nil => rfl
  | cons p rest ih => simp [Deserialize, ih]

theorem Deserialize_length (packets : List Packet) :
    (Deserialize packets).length = packets.length * PacketDataSize := by
  induction packets with
  | nil => rfl
  | cons p rest ih =>
    simp only [Deserialize, List.length_append, List.length_cons, ih, goCopy_length,
      List.length_replicate]
    ring

theorem serializePackets_length (data : List Nat) :
    (serializePackets data).length = (data.length + 1023) / 1024 := by
  simp [serializePackets, PacketDataSize]

theorem Deserialize_serializePackets (data : List Nat) :
    Deserialize (serializePackets data)
      = data ++ List.replicate ((data.length + 1023) / 1024 * 1024 - data.length) 0 := by
  have hceil1 : data.length ≤ (data.length + 1023) / 1024 * 1024 := by omega
  have hceil2 : (data.length + 1023) / 1024 * 1024 < data.length + 1024 := by omega
  have hs : (data.length + (PacketDataSize - 1)) / PacketDataSize
      = (data.length + 1023) / 1024 := by norm_num [PacketDataSize]
  rw [Deserialize_flatten]
  unfold serializePackets
  rw [List.map_map, hs]
  have hmap : ∀ i ∈ List.range ((data.length + 1023) / 1024),
      ((fun p => goCopy (List.replicate PacketDataSize 0) p.data) ∘
        fun sequence => mkSerializedPacket ((data.length + 1023) / 1024) sequence
          (serializeChunk data ((data.length + 1023) / 1024) sequence)) i
        = padTo 1024 ((data.drop (i * 1024)).take 1024) := by
    intro i hi
    simp only [Function.comp_apply, mkSerializedPacket]
    rw [goCopy_eq_self _ _ (by simp [serializeChunk_length])]
    have hchunk := serializeChunk_eq_padTo data ((data.length + 1023) / 1024) i
      (List.mem_range.mp hi) hceil1 hceil2
    simp only [PacketDataSize] at hchunk ⊢
    exact hchunk
  rw [List.map_congr_left hmap, join_padTo_chunks, List.take_of_length_le hceil1]

instance : Inhabited Packet := ⟨⟨[], [], []⟩⟩

theorem getD_map_range {α : Type} (f : Nat → α) (s i : Nat) (h : i < s) (d : α) :
    ((List.range s).map f).getD i d = f i := by
  rw [List.getD_eq_getElem?_getD, List.getElem?_map, List.getElem?_range h]
  rfl

theorem mkSerializedPacket_GetSize (s q : Nat) (d : List Nat) :
    (mkSerializedPacket s q d).GetSize = Except.ok (s % 2 ^ 32) := by
  unfold mkSerializedPacket Packet.GetSize
  rw [binaryToInt_intToBinary _ (Nat.mod_lt _ (by norm_num))]

theorem mkSerializedPacket_GetSequence (s q : Nat) (d : List Nat) :
    (mkSerializedPacket s q d).GetSequence = Except.ok (q % 2 ^ 32) := by
  unfold mkSerializedPacket Packet.GetSequence
  rw [binaryToInt_intToBinary _ (Nat.mod_lt _ (by norm_num))]

/-- C1: for every byte payload, `Deserialize` of `Serialize` succeeds and
yields a buffer of length `ceil(L/1024)*1024` whose first `L` bytes are
the payload and whose remaining bytes are all zero. -/
theorem serialize_deserialize_roundtrip (data : List Nat) :
    ∃ packets,
      Serialize data = Except.ok packets ∧
      (Deserialize packets).length = (data.length + 1023) / 1024 * 1024 ∧
      (Deserialize packets).take data.length = data ∧
      (Deserialize packets).drop data.length
        = List.replicate ((data.length + 1023) / 1024 * 1024 - data.length) 0 := by
  have hceil1 : data.length ≤ (data.length + 1023) / 1024 * 1024 := by omega
  refine ⟨serializePackets data, Serialize_eq data, ?_, ?_, ?_⟩ <;>
    rw [Deserialize_serializePackets]
  · simp
    omega
  · exact List.take_left' rfl
  · exact List.drop_left' rfl

/-- C2 (amended): `Serialize` always succeeds and produces exactly
`ceil(L/1024)` packets (in particular zero packets for an empty
payload); packet `i` carries chunk `i` of the payload, zero-padded on
the last chunk; the stored `Sequence` field decodes to `i mod 2^32` and
the stored `Size` field decodes to `count mod 2^32` on every packet
(equal to `i` resp. `count` whenever `count < 2^32`, but truncated for
astronomically large payloads). -/
theorem serialize_chunking (data : List Nat) (i : Nat) :
    Serialize data = Except.ok (serializePackets data) ∧
    (serializePackets data).length = (data.length + 1023) / 1024 ∧
    (i < (data.length + 1023) / 1024 →
      ((serializePackets data).getD i default).GetSize
        = Except.ok ((data.length + 1023) / 1024 % 2 ^ 32) ∧
      ((serializePackets data).getD i default).GetSequence = Except.ok (i % 2 ^ 32) ∧
      ((serializePackets data).getD i default).data
        = (data.drop (i * 1024)).take 1024
          ++ List.replicate (1024 - ((data.drop (i * 1024)).take 1024).length) 0) := by
  refine ⟨Serialize_eq data, serializePackets_length data, fun h => ?_⟩
  have hceil1 : data.length ≤ (data.length + 1023) / 1024 * 1024 := by omega
  have hceil2 : (data.length + 1023) / 1024 * 1024 < data.length + 1024 := by omega
  have hs : (data.length + (PacketDataSize - 1)) / PacketDataSize
      = (data.length + 1023) / 1024 := by norm_num [PacketDataSize]
  have hgetD : (serializePackets data).getD i default
      = mkSerializedPacket ((data.length + 1023) / 1024) i
          (serializeChunk data ((data.length + 1023) / 1024) i) := by
    unfold serializePackets
    rw [hs, getD_map_range _ _ _ h]
  refine ⟨?_, ?_, ?_⟩
  · rw [hgetD, mkSerializedPacket_GetSize]
  · rw [hgetD, mkSerializedPacket_GetSequence]
  · rw [hgetD]
    have hchunk := serializeChunk_eq_padTo data ((data.length + 1023) / 1024) i
      h hceil1 hceil2
    unfold padTo at hchunk
    exact hchunk

/-- C2 witness: the empty payload yields zero packets with `Serialize`
still succeeding, and a 1-byte payload yields one packet whose `Size`
and `Sequence` fields decode to 1 and 0 and whose data block is the
byte followed by 1023 zero bytes. -/
theorem serialize_chunking_witness :
    (Serialize [] = Except.ok (serializePackets []) ∧
      (serializePackets []).length = 0) ∧
    ((0 : Nat) < (List.length [7] + 1023) / 1024 ∧
      (Serialize [7] = Except.ok (serializePackets [7]) ∧
        (serializePackets [7]).length = (List.length [7] + 1023) / 1024 ∧
        (((serializePackets [7]).getD 0 default).GetSize
            = Except.ok ((List.length [7] + 1023) / 1024 % 2 ^ 32) ∧
          ((serializePackets [7]).getD 0 default).GetSequence = Except.ok (0 % 2 ^ 32) ∧
          ((serializePackets [7]).getD 0 default).data
            = (List.drop (0 * 1024) [7]).take 1024
              ++ List.replicate
                  (1024 - ((List.drop (0 * 1024) [7]).take 1024).length) 0))) := by
  constructor
  · have h := serialize_chunking [] 0
    refine ⟨h.1, ?_⟩
    rw [h.2.1]
    norm_num
  · have h := serialize_chunking [7] 0
    have hlt : (0 : Nat) < (List.length [7] + 1023) / 1024 := by norm_num
    exact ⟨hlt, h.1, h.2.1, h.2.2 hlt⟩

/-- C2 counterexample: for the 2^42-byte payload the packet count is
2^32, and the stored `Size` field of packet 0 decodes to 0, not to the
packet count - the 4-byte field silently wraps modulo 2^32. -/
theorem serialize_size_field_truncates :
    Serialize (List.replicate 4398046511104 0)
      = Except.ok (serializePackets (List.replicate 4398046511104 0)) ∧
    (serializePackets (List.replicate 4398046511104 0)).length = 4294967296 ∧
    ((serializePackets (List.replicate 4398046511104 0)).getD 0 default).GetSize
      = Except.ok 0 ∧
    (0 : Nat) ≠ 4294967296 := by
  have hlen : (List.replicate 4398046511104 (0 : Nat)).length = 4398046511104 :=
    List.length_replicate _ _
  have hceil : ((List.replicate 4398046511104 (0 : Nat)).length + (PacketDataSize - 1))
      / PacketDataSize = 4294967296 := by
    rw [hlen]; norm_num [PacketDataSize]
  refine ⟨Serialize_eq _, ?_, ?_, by norm_num⟩
  · rw [serializePackets_length, hlen]
  · unfold serializePackets
    rw [hceil, getD_map_range _ _ _ (by norm_num), mkSerializedPacket_GetSize]
    norm_num

/-- C7: `Deserialize` concatenates the packets' data blocks in the array
order supplied by the caller - no sorting and no inspection of the
stored sequence numbers - into a buffer of length `len(packets) * 1024`. -/
theorem deserialize_concatenates (packets : List Packet)
    (h : ∀ p ∈ packets, p.data.length = PacketDataSize) :
    Deserialize packets = (packets.map Packet.data).flatten ∧
    (Deserialize packets).length = packets.length * 1024 := by
  constructor
  · rw [Deserialize_flatten]
    congr 1
    exact List.map_congr_left fun p hp => goCopy_eq_self _ _ (by simp [h p hp])
  · rw [Deserialize_length]
    norm_num [PacketDataSize]

/-- C7 witness: two packets with out-of-order stored sequence numbers
are concatenated exactly in the array order given. -/
theorem deserialize_concatenates_witness :
    (∀ p ∈ [Packet.mk [1, 0, 0, 0] [9, 9, 9, 9] (List.replicate 1024 7),
            Packet.mk [1, 0, 0, 0] [0, 0, 0, 0] (List.replicate 1024 8)],
        p.data.length = PacketDataSize) ∧
    (Deserialize [Packet.mk [1, 0, 0, 0] [9, 9, 9, 9] (List.replicate 1024 7),
          Packet.mk [1, 0, 0, 0] [0, 0, 0, 0] (List.replicate 1024 8)]
        = ([Packet.mk [1, 0, 0, 0] [9, 9, 9, 9] (List.replicate 1024 7),
            Packet.mk [1, 0, 0, 0] [0, 0, 0, 0] (List.replicate 1024 8)].map
            Packet.data).flatten ∧
      (Deserialize [Packet.mk [1, 0, 0, 0] [9, 9, 9, 9] (List.replicate 1024 7),
          Packet.mk [1, 0, 0, 0] [0, 0, 0, 0] (List.replicate 1024 8)]).length
        = 2 * 1024) :=
  ⟨by simp [PacketDataSize], by
    have := deserialize_concatenates
      [Packet.mk [1, 0, 0, 0] [9, 9, 9, 9] (List.replicate 1024 7),
        Packet.mk [1, 0, 0, 0] [0, 0, 0, 0] (List.replicate 1024 8)]
      (by simp [PacketDataSize])
    simpa using this⟩

/-! ## Packet byte layout -/

theorem ToBytes_eq (p : Packet) (h : p.WF) :
    p.ToBytes = p.size ++ p.sequence ++ p.data := by
  obtain ⟨h1, h2, h3⟩ := h
  unfold Packet.ToBytes
  rw [goCopy_eq_self _ _ (by simp [h1]), goCopy_eq_self _ _ (by simp [h2]),
    goCopy_eq_self _ _ (by simp [h3, PacketDataSize, PacketTotalSize, PacketAddrSize])]

theorem append_take_addr (p : Packet) (h : p.WF) :
    (p.size ++ p.sequence ++ p.data).take PacketAddrSize = p.size := by
  rw [List.append_assoc]
  exact List.take_left' h.1

theorem append_drop_take_addr (p : Packet) (h : p.WF) :
    ((p.size ++ p.sequence ++ p.data).drop PacketAddrSize).take PacketAddrSize
      = p.sequence := by
  rw [List.append_assoc, List.drop_left' h.1]
  rw [show p.sequence ++ p.data = p.sequence ++ p.data from rfl]
  exact List.take_left' h.2.1

theorem append_drop_two_addr (p : Packet) (h : p.WF) :
    (p.size ++ p.sequence ++ p.data).drop (2 * PacketAddrSize) = p.data := by
  exact List.drop_left' (by simp [h.1, h.2.1, PacketAddrSize])

/-- C6: `ToBytes` is total (it is a plain function with no error path)
and produces exactly 1032 bytes: bytes `[0,4)` are the `Size` field,
bytes `[4,8)` the `Sequence` field, bytes `[8,1032)` the `Data` block. -/
theorem toBytes_layout (p : Packet) (h : p.WF) :
    (∀ q : Packet, (Packet.ToBytes q).length = PacketTotalSize) ∧
    (p.ToBytes).take PacketAddrSize = p.size ∧
    ((p.ToBytes).drop PacketAddrSize).take PacketAddrSize = p.sequence ∧
    (p.ToBytes).drop (2 * PacketAddrSize) = p.data := by
  refine ⟨fun q => ?_, ?_, ?_, ?_⟩
  · unfold Packet.ToBytes
    simp [goCopy_length, PacketAddrSize, PacketTotalSize]
  · rw [ToBytes_eq p h]; exact append_take_addr p h
  · rw [ToBytes_eq p h]; exact append_drop_take_addr p h
  · rw [ToBytes_eq p h]; exact append_drop_two_addr p h

/-- C6 witness: the layout facts evaluated on a concrete packet. -/
theorem toBytes_layout_witness :
    (Packet.mk [1, 2, 3, 4] [5, 6, 7, 8] (List.replicate 1024 9)).WF ∧
    ((∀ q : Packet, (Packet.ToBytes q).length = PacketTotalSize) ∧
      ((Packet.mk [1, 2, 3, 4] [5, 6, 7, 8] (List.replicate 1024 9)).ToBytes).take
          PacketAddrSize = [1, 2, 3, 4] ∧
      (((Packet.mk [1, 2, 3, 4] [5, 6, 7, 8] (List.replicate 1024 9)).ToBytes).drop
          PacketAddrSize).take PacketAddrSize = [5, 6, 7, 8] ∧
      ((Packet.mk [1, 2, 3, 4] [5, 6, 7, 8] (List.replicate 1024 9)).ToBytes).drop
          (2 * PacketAddrSize) = List.replicate 1024 9) :=
  ⟨by simp [Packet.WF, PacketAddrSize, PacketDataSize],
    toBytes_layout _ (by simp [Packet.WF, PacketAddrSize, PacketDataSize])⟩

/-- C3: `RebornPacket` inverts `ToBytes` field-for-field on every
well-formed packet, and `ToBytes` inverts `RebornPacket` on every
1032-byte buffer. -/
theorem reborn_toBytes_inverse (p : Packet) (buf : List Nat) (hp : p.WF)
    (hbuf : buf.length = PacketTotalSize) :
    RebornPacket p.ToBytes = p ∧ (RebornPacket buf).ToBytes = buf := by
  have hbuf' : buf.length = 1032 := by rw [hbuf]; rfl
  constructor
  · rw [ToBytes_eq p hp]
    unfold RebornPacket
    rw [append_take_addr p hp, append_drop_take_addr p hp, append_drop_two_addr p hp,
      List.take_of_length_le (le_of_eq hp.2.2),
      goCopy_eq_self _ _ (by simp [hp.1]), goCopy_eq_self _ _ (by simp [hp.2.1]),
      goCopy_eq_self _ _ (by simp [hp.2.2])]
  · unfold RebornPacket Packet.ToBytes
    simp only
    have e1 : goCopy (List.replicate PacketAddrSize 0) (buf.take PacketAddrSize)
        = buf.take PacketAddrSize :=
      goCopy_eq_self _ _ (by simp [PacketAddrSize]; omega)
    have e2 : goCopy (List.replicate PacketAddrSize 0)
        ((buf.drop PacketAddrSize).take PacketAddrSize)
        = (buf.drop PacketAddrSize).take PacketAddrSize :=
      goCopy_eq_self _ _ (by simp [PacketAddrSize]; omega)
    have e3 : goCopy (List.replicate PacketDataSize 0)
        ((buf.drop (2 * PacketAddrSize)).take PacketDataSize)
        = (buf.drop (2 * PacketAddrSize)).take PacketDataSize :=
      goCopy_eq_self _ _ (by simp [PacketAddrSize, PacketDataSize]; omega)
    have e4 : goCopy (List.replicate (PacketTotalSize - 2 * PacketAddrSize) 0)
        ((buf.drop (2 * PacketAddrSize)).take PacketDataSize)
        = (buf.drop (2 * PacketAddrSize)).take PacketDataSize :=
      goCopy_eq_self _ _ (by
        simp [PacketAddrSize, PacketDataSize, PacketTotalSize]; omega)
    rw [e1, e2, e3, e4, e1, e2]
    have h8 : buf.drop (2 * PacketAddrSize) = (buf.drop PacketAddrSize).drop PacketAddrSize := by
      rw [List.drop_drop]
      norm_num [PacketAddrSize]
    have h9 : ((buf.drop PacketAddrSize).drop PacketAddrSize).take PacketDataSize
        = (buf.drop PacketAddrSize).drop PacketAddrSize :=
      List.take_of_length_le (by simp [PacketAddrSize, PacketDataSize]; omega)
    rw [h8, h9, List.append_assoc, List.take_append_drop, List.take_append_drop]

/-- C3 witness: round trip evaluated on a concrete well-formed packet
and a concrete 1032-byte buffer. -/
theorem reborn_toBytes_inverse_witness :
    (Packet.mk [1, 2, 3, 4] [5, 6, 7, 8] (List.replicate 1024 9)).WF ∧
    (List.replicate 1032 (11 : Nat)).length = PacketTotalSize ∧
    (RebornPacket (Packet.mk [1, 2, 3, 4] [5, 6, 7, 8]
        (List.replicate 1024 9)).ToBytes
      = Packet.mk [1, 2, 3, 4] [5, 6, 7, 8] (List.replicate 1024 9) ∧
      (RebornPacket (List.replicate 1032 (11 : Nat))).ToBytes
        = List.replicate 1032 (11 : Nat)) :=
  ⟨by simp [Packet.WF, PacketAddrSize, PacketDataSize],
    by simp [PacketTotalSize],
    reborn_toBytes_inverse _ _ (by simp [Packet.WF, PacketAddrSize, PacketDataSize])
      (by simp [PacketTotalSize])⟩

/-! ## Address-field overflow behaviour -/

/-- C4 (actual code behaviour at the overflow input): `NewPacket` with
`size = 2^32` succeeds - the value is truncated to `uint32` before the
4-byte length guard runs, so the guard can never fire - and the stored
`Size` field decodes to 0, not to an address-overflow error. -/
theorem newPacket_overflow_no_error :
    NewPacket 4294967296 0 (List.replicate PacketDataSize 0)
      = Except.ok
          (Packet.mk (intToBinary 0) (intToBinary 0) (List.replicate PacketDataSize 0)) ∧
    (Packet.mk (intToBinary 0) (intToBinary 0)
        (List.replicate PacketDataSize 0)).GetSize = Except.ok 0 := by
  constructor
  · rw [show (4294967296 : Int) = Int.ofNat 4294967296 from rfl,
      show (0 : Int) = Int.ofNat 0 from rfl, NewPacket_ofNat_ok]
    norm_num [mkSerializedPacket]
  · unfold Packet.GetSize
    rw [binaryToInt_intToBinary 0 (by norm_num)]

/-- C9: `SetSize` and `SetSequence` never return their overflow error:
for every host integer `n` the stored 4-byte field is the little-endian
encoding of `n mod 2^32`, and decoding it yields `n mod 2^32`. -/
theorem setters_never_fail (p : Packet) (n : Int) (h : p.WF) :
    ∃ p1 p2,
      p.SetSize n = Except.ok p1 ∧
      p1.size = intToBinary ((n % (2 ^ 32 : Int)).toNat) ∧
      p1.GetSize = Except.ok ((n % (2 ^ 32 : Int)).toNat) ∧
      p.SetSequence n = Except.ok p2 ∧
      p2.sequence = intToBinary ((n % (2 ^ 32 : Int)).toNat) ∧
      p2.GetSequence = Except.ok ((n % (2 ^ 32 : Int)).toNat) := by
  have hpow : (n % (2 ^ 32 : Int)).toNat = toUInt32 n := by
    unfold toUInt32
    norm_num
  have hsize : p.SetSize n = Except.ok { p with size := intToBinary (toUInt32 n) } := by
    simp only [Packet.SetSize, intToBinary_length, PacketAddrSize]
    rw [goCopy_eq_self _ _ (by simp [intToBinary_length, h.1, PacketAddrSize])]
    rfl
  have hseq : p.SetSequence n
      = Except.ok { p with sequence := intToBinary (toUInt32 n) } := by
    simp only [Packet.SetSequence, intToBinary_length, PacketAddrSize]
    rw [goCopy_eq_self _ _ (by simp [intToBinary_length, h.2.1, PacketAddrSize])]
    rfl
  have hget : Packet.GetSize { p with size := intToBinary (toUInt32 n) }
      = Except.ok (toUInt32 n) := by
    unfold Packet.GetSize
    simp only
    rw [binaryToInt_intToBinary _ (toUInt32_lt n)]
  have hgetq : Packet.GetSequence { p with sequence := intToBinary (toUInt32 n) }
      = Except.ok (toUInt32 n) := by
    unfold Packet.GetSequence
    simp only
    rw [binaryToInt_intToBinary _ (toUInt32_lt n)]
  exact ⟨_, _, hsize, by rw [hpow], by rw [hpow]; exact hget,
    hseq, by rw [hpow], by rw [hpow]; exact hgetq⟩

/-- C9 witness: setting `-1` on a concrete well-formed packet succeeds
and stores `2^32 - 1 = 4294967295`. -/
theorem setters_never_fail_witness :
    (Packet.mk (List.replicate 4 0) (List.replicate 4 0) (List.replicate 1024 0)).WF ∧
    (∃ p1 p2,
      (Packet.mk (List.replicate 4 0) (List.replicate 4 0)
          (List.replicate 1024 0)).SetSize (-1) = Except.ok p1 ∧
      p1.size = intToBinary (((-1 : Int) % (2 ^ 32 : Int)).toNat) ∧
      p1.GetSize = Except.ok (((-1 : Int) % (2 ^ 32 : Int)).toNat) ∧
      (Packet.mk (List.replicate 4 0) (List.replicate 4 0)
          (List.replicate 1024 0)).SetSequence (-1) = Except.ok p2 ∧
      p2.sequence = intToBinary (((-1 : Int) % (2 ^ 32 : Int)).toNat) ∧
      p2.GetSequence = Except.ok (((-1 : Int) % (2 ^ 32 : Int)).toNat)) :=
  ⟨by simp [Packet.WF, PacketAddrSize, PacketDataSize],
    setters_never_fail _ (-1) (by simp [Packet.WF, PacketAddrSize, PacketDataSize])⟩

theorem binaryToInt_of_length (bin : List Nat) (h : bin.length = 4) :
    binaryToInt bin
      = some (bin.getD 0 0 + 256 * bin.getD 1 0 + 65536 * bin.getD 2 0
          + 16777216 * bin.getD 3 0) := by
  rcases bin with _ | ⟨b0, _ | ⟨b1, _ | ⟨b2, _ | ⟨b3, rest⟩⟩⟩⟩ <;> simp at h <;> rfl

/-- C10: `GetSize` and `GetSequence` never return their decode-error
branch on a well-formed packet: each decodes the fixed 4-byte field as a
little-endian unsigned integer. -/
theorem getters_never_fail (p : Packet) (h : p.WF) :
    p.GetSize = Except.ok (p.size.getD 0 0 + 256 * p.size.getD 1 0
        + 65536 * p.size.getD 2 0 + 16777216 * p.size.getD 3 0) ∧
    p.GetSequence = Except.ok (p.sequence.getD 0 0 + 256 * p.sequence.getD 1 0
        + 65536 * p.sequence.getD 2 0 + 16777216 * p.sequence.getD 3 0) := by
  constructor
  · unfold Packet.GetSize
    rw [binaryToInt_of_length p.size (by simpa [PacketAddrSize] using h.1)]
  · unfold Packet.GetSequence
    rw [binaryToInt_of_length p.sequence (by simpa [PacketAddrSize] using h.2.1)]

/-- C10 witness: the getters evaluated on a concrete packet. -/
theorem getters_never_fail_witness :
    (Packet.mk [1, 2, 3, 4] [5, 6, 7, 8] (List.replicate 1024 9)).WF ∧
    ((Packet.mk [1, 2, 3, 4] [5, 6, 7, 8] (List.replicate 1024 9)).GetSize
        = Except.ok (1 + 256 * 2 + 65536 * 3 + 16777216 * 4) ∧
      (Packet.mk [1, 2, 3, 4] [5, 6, 7, 8] (List.replicate 1024 9)).GetSequence
        = Except.ok (5 + 256 * 6 + 65536 * 7 + 16777216 * 8)) :=
  ⟨by simp [Packet.WF, PacketAddrSize, PacketDataSize],
    getters_never_fail _ (by simp [Packet.WF, PacketAddrSize, PacketDataSize])⟩

/-- C8: the protocol constants have exactly the specified values. -/
theorem protocol_constants :
    RequestPrefix = 'q' ∧ ResponsePrefix = 's' ∧ ByteDelim = 4 ∧
    TypeIdentity = "IDENTITY" ∧ TypeDigest = "DIGEST" ∧
    TypeSyncRequest = "SYNC-REQUEST" ∧ TypeFile = "FILE" ∧
    StatusOK = 200 ∧ StatusBad = 400 ∧
    MessageAccept = "ACCEPT" ∧ MessageDeny = "DENY" ∧
    SyncboxServerUsernam = "SYNCBOX-SERVER" :=
  ⟨rfl, rfl, rfl, rfl, rfl, rfl, rfl, rfl, rfl, rfl, rfl, rfl⟩

/-! ## Base64 (the encoding used by Go `encoding/json` for `[]byte`) -/

/-- The standard base64 alphabet (RFC 4648, as used by Go
`encoding/base64.StdEncoding`). -/
def base64Table : List Char :=
  ['A', 'B', 'C', 'D', 'E', 'F', 'G', 'H', 'I', 'J', 'K', 'L', 'M',
   'N', 'O', 'P', 'Q', 'R', 'S', 'T', 'U', 'V', 'W', 'X', 'Y', 'Z',
   'a', 'b', 'c', 'd', 'e', 'f', 'g', 'h', 'i', 'j', 'k', 'l', 'm',
   'n', 'o', 'p', 'q', 'r', 's', 't', 'u', 'v', 'w', 'x', 'y', 'z',
   '0', '1', '2', '3', '4', '5', '6', '7', '8', '9', '+', '/']

def b64Char (n : Nat) : Char := base64Table.getD n 'A'

def b64Index (c : Char) : List Char → Option Nat
  | [] => none
  | d :: rest => if c = d then some 0 else (b64Index c rest).map (· + 1)

/-- Standard base64 encoding with `=` padding, three input bytes per
four output characters. -/
def base64Encode : List Nat → List Char
  | [] => []
  | [b0] => [b64Char (b0 / 4), b64Char (b0 % 4 * 16), '=', '=']
  | [b0, b1] =>
      [b64Char (b0 / 4), b64Char (b0 % 4 * 16 + b1 / 16), b64Char (b1 % 16 * 4), '=']
  | b0 :: b1 :: b2 :: rest =>
      b64Char (b0 / 4) :: b64Char (b0 % 4 * 16 + b1 / 16) ::
      b64Char (b1 % 16 * 4 + b2 / 64) :: b64Char (b2 % 64) :: base64Encode rest

/-- Standard base64 decoding, strict on grouping and padding. -/
def base64Decode : List Char → Option (List Nat)
  | [] => some []
  | c0 :: c1 :: c2 :: c3 :: rest =>
      match b64Index c0 base64Table, b64Index c1 base64Table with
      | some n0, some n1 =>
        if c2 = '=' then
          if c3 = '=' ∧ rest = [] then some [n0 * 4 + n1 / 16] else none
        else
          match b64Index c2 base64Table with
          | some n2 =>
            if c3 = '=' then
              if rest = [] then some [n0 * 4 + n1 / 16, n1 % 16 * 16 + n2 / 4] else none
            else
              match b64Index c3 base64Table, base64Decode rest with
              | some n3, some tail =>
                  some ((n0 * 4 + n1 / 16) :: (n1 % 16 * 16 + n2 / 4) ::
                    (n2 % 4 * 64 + n3) :: tail)
              | _, _ => none
          | none => none
      | _, _ => none
  | _ => none

theorem b64Index_b64Char : ∀ n : Nat, n < 64 →
    b64Index (b64Char n) base64Table = some n := by
  decide

theorem b64Char_ne_pad : ∀ n : Nat, n < 64 → b64Char n ≠ '=' := by
  decide

theorem base64Decode_pad2 (n0 n1 : Nat) (h0 : n0 < 64) (h1 : n1 < 64) :
    base64Decode [b64Char n0, b64Char n1, '=', '='] = some [n0 * 4 + n1 / 16] := by
  unfold base64Decode
  rw [b64Index_b64Char _ h0, b64Index_b64Char _ h1]
  simp

theorem base64Decode_pad1 (n0 n1 n2 : Nat) (h0 : n0 < 64) (h1 : n1 < 64) (h2 : n2 < 64) :
    base64Decode [b64Char n0, b64Char n1, b64Char n2, '=']
      = some [n0 * 4 + n1 / 16, n1 % 16 * 16 + n2 / 4] := by
  unfold base64Decode
  rw [b64Index_b64Char _ h0, b64Index_b64Char _ h1, b64Index_b64Char _ h2]
  simp [b64Char_ne_pad _ h2]

theorem base64Decode_full (n0 n1 n2 n3 : Nat) (rest : List Char) (tail : List Nat)
    (h0 : n0 < 64) (h1 : n1 < 64) (h2 : n2 < 64) (h3 : n3 < 64)
    (hrest : base64Decode rest = some tail) :
    base64Decode (b64Char n0 :: b64Char n1 :: b64Char n2 :: b64Char n3 :: rest)
      = some ((n0 * 4 + n1 / 16) :: (n1 % 16 * 16 + n2 / 4) ::
          (n2 % 4 * 64 + n3) :: tail) := by
  unfold base64Decode
  rw [b64Index_b64Char _ h0, b64Index_b64Char _ h1, b64Index_b64Char _ h2,
    b64Index_b64Char _ h3, hrest]
  simp [b64Char_ne_pad _ h2, b64Char_ne_pad _ h3]

/-- Decoding inverts encoding on every byte list. -/
theorem base64_roundtrip (bs : List Nat) (h : ∀ b ∈ bs, b < 256) :
    base64Decode (base64Encode bs) = some bs := by
  induction bs using base64Encode.induct with
  | case1 => rfl
  | case2 b0 =>
    have h0 : b0 < 256 := h b0 (by simp)
    rw [show base64Encode [b0]
        = [b64Char (b0 / 4), b64Char (b0 % 4 * 16), '=', '='] from rfl,
      base64Decode_pad2 _ _ (by omega) (by omega)]
    simp only [Option.some.injEq, List.cons.injEq, and_true]
    omega
  | case3 b0 b1 =>
    have h0 : b0 < 256 := h b0 (by simp)
    have h1 : b1 < 256 := h b1 (by simp)
    rw [show base64Encode [b0, b1]
        = [b64Char (b0 / 4), b64Char (b0 % 4 * 16 + b1 / 16),
            b64Char (b1 % 16 * 4), '='] from rfl,
      base64Decode_pad1 _ _ _ (by omega) (by omega) (by omega)]
    simp only [Option.some.injEq, List.cons.injEq, and_true]
    omega
  | case4 b0 b1 b2 rest ih =>
    have h0 : b0 < 256 := h b0 (by simp)
    have h1 : b1 < 256 := h b1 (by simp)
    have h2 : b2 < 256 := h b2 (by simp)
    have hrest : base64Decode (base64Encode rest) = some rest :=
      ih (fun b hb => h b (by simp [hb]))
    rw [show base64Encode (b0 :: b1 :: b2 :: rest)
        = b64Char (b0 / 4) :: b64Char (b0 % 4 * 16 + b1 / 16) ::
          b64Char (b1 % 16 * 4 + b2 / 64) :: b64Char (b2 % 64) ::
          base64Encode rest from rfl,
      base64Decode_full _ _ _ _ _ _ (by omega) (by omega) (by omega) (by omega) hrest]
    simp only [Option.some.injEq, List.cons.injEq]
    exact ⟨by omega, by omega, by omega, trivial⟩

/-! ## Message envelopes (logger.go 289-397)

`Request.ToJSON`/`Response.ToJSON` call Go `encoding/json.Marshal`, and
`RebornRequest`/`RebornResponse` call `json.Unmarshal`.  The library is
modelled at the level of JSON values: `Marshal` of these structs
produces an object with the struct's field names in declaration order,
strings as JSON strings, the `int` field as a JSON number and the
`[]byte` field as a JSON string holding the standard base64 encoding of
the bytes (this is `encoding/json`'s documented treatment of `[]byte`,
and is what makes arbitrary binary payloads - including the delimiter
byte 0x04 - survive the text encoding).  Printing a JSON value to text
and parsing it back is Go library code outside this repository and is
modelled as the identity on JSON values; `Unmarshal` is modelled on the
canonical object shape that `Marshal` emits. -/

inductive Json where
  | jnull : Json
  | jnum : Int → Json
  | jstr : List Char → Json
  | jobj : List (String × Json) → Json

/-- Embeds the `Request` struct (logger.go 290-294). -/
structure Request where
  Username : String
  DataType : String
  Data : List Nat
deriving DecidableEq, Repr

/-- Embeds the `Response` struct (logger.go 304-308). -/
structure Response where
  Status : Int
  Message : String
  Data : List Nat
deriving DecidableEq, Repr

/-- Embeds `Request.ToJSON` (logger.go 362-368): `json.Marshal` of the struct. -/
def Request.ToJSON (req : Request) : Json :=
  Json.jobj [("Username", Json.jstr req.Username.toList),
    ("DataType", Json.jstr req.DataType.toList),
    ("Data", Json.jstr (base64Encode req.Data))]

/-- Embeds `RebornRequest` (logger.go 371-378): `json.Unmarshal` into a fresh
`Request`, on the canonical object shape produced by `Marshal`. -/
def RebornRequest (j : Json) : Option Request :=
  match j with
  | Json.jobj [(k1, Json.jstr u), (k2, Json.jstr t), (k3, Json.jstr d)] =>
      if k1 = "Username" ∧ k2 = "DataType" ∧ k3 = "Data" then
        match base64Decode d with
        | some bs =>
            some { Username := String.mk u, DataType := String.mk t, Data := bs }
        | none => none
      else none
  | _ => none

/-- Embeds `Response.ToJSON` (logger.go 381-387): `json.Marshal` of the struct. -/
def Response.ToJSON (res : Response) : Json :=
  Json.jobj [("Status", Json.jnum res.Status),
    ("Message", Json.jstr res.Message.toList),
    ("Data", Json.jstr (base64Encode res.Data))]

/-- Embeds `RebornResponse` (logger.go 390-397): `json.Unmarshal` into a fresh
`Response`, on the canonical object shape produced by `Marshal`. -/
def RebornResponse (j : Json) : Option Response :=
  match j with
  | Json.jobj [(k1, Json.jnum s), (k2, Json.jstr m), (k3, Json.jstr d)] =>
      if k1 = "Status" ∧ k2 = "Message" ∧ k3 = "Data" then
        match base64Decode d with
        | some bs =>
            some { Status := s, Message := String.mk m, Data := bs }
        | none => none
      else none
  | _ => none

theorem RebornRequest_jobj (u t d : List Char) :
    RebornRequest (Json.jobj [("Username", Json.jstr u), ("DataType", Json.jstr t),
        ("Data", Json.jstr d)])
      = Option.map (fun bs => Request.mk (String.mk u) (String.mk t) bs)
          (base64Decode d) := by
  cases hbd : base64Decode d <;> simp [RebornRequest, hbd]

theorem RebornResponse_jobj (st : Int) (m d : List Char) :
    RebornResponse (Json.jobj [("Status", Json.jnum st), ("Message", Json.jstr m),
        ("Data", Json.jstr d)])
      = Option.map (fun bs => Response.mk st (String.mk m) bs) (base64Decode d) := by
  cases hbd : base64Decode d <;> simp [RebornResponse, hbd]

/-- C5: decoding the encoding of any `Request` and any `Response` -
including payloads holding arbitrary binary bytes such as the delimiter
byte 0x04 - succeeds and returns the original value in every field. -/
theorem envelope_roundtrip (req : Request) (res : Response)
    (hreq : ∀ b ∈ req.Data, b < 256) (hres : ∀ b ∈ res.Data, b < 256) :
    RebornRequest req.ToJSON = some req ∧ RebornResponse res.ToJSON = some res := by
  constructor
  · unfold Request.ToJSON
    rw [RebornRequest_jobj, base64_roundtrip req.Data hreq]
    rfl
  · unfold Response.ToJSON
    rw [RebornResponse_jobj, base64_roundtrip res.Data hres]
    rfl

/-- C5 witness: a request whose payload is exactly the delimiter byte
and the deny response of scenario 4 both round-trip unchanged. -/
theorem envelope_roundtrip_witness :
    (∀ b ∈ [ByteDelim], b < 256) ∧ (∀ b ∈ [ByteDelim], b < 256) ∧
    (RebornRequest (Request.mk "alice" TypeIdentity [ByteDelim]).ToJSON
        = some (Request.mk "alice" TypeIdentity [ByteDelim]) ∧
      RebornResponse (Response.mk StatusBad MessageDeny [ByteDelim]).ToJSON
        = some (Response.mk StatusBad MessageDeny [ByteDelim])) :=
  ⟨by decide, by decide,
    envelope_roundtrip (Request.mk "alice" TypeIdentity [ByteDelim])
      (Response.mk StatusBad MessageDeny [ByteDelim])
      (by decide) (by decide)⟩
